import Mathlib

/-!
Verification of the documented Data API contract and the example helper
functions of this repository.

The repository ships only documentation for a REST data-management API
(`/data`, `/data/batch`, …) and its client; the package implementing them
(`your-api-client`) is not part of the sources.  The server/client
operations below are therefore modelled from the spec's contract-level
description.  The helper functions `withErrorHandling` and
`retryWithBackoff` do exist as code, in `src/examples/basic-usage.js`,
and are embedded from that source.
-/

/-- Status of a resource: `active` or `inactive` as documented. -/
inductive Status where
  | active
  | inactive
deriving DecidableEq, Repr

/-- Modelled from the spec: the client-supplied payload of a resource
(`name`, optional `description`, `status`, `tags`, open `metadata` map);
the implementation is absent from the repository, only its documented
shape exists. -/
structure Payload where
  name : String
  description : Option String
  status : Status
  tags : List String
  metadata : List (String × String)
deriving DecidableEq, Repr

/-- Modelled from the spec: a stored resource record — the payload fields
extended with the server-assigned `id`, `created_at` and `updated_at`. -/
structure Resource where
  id : String
  name : String
  description : Option String
  status : Status
  tags : List String
  metadata : List (String × String)
  created_at : Nat
  updated_at : Nat
deriving DecidableEq, Repr

/-- Error codes documented in the API's error-code table. -/
inductive ErrorCode where
  | VALIDATION_ERROR
  | INVALID_REQUEST
  | UNAUTHORIZED
  | FORBIDDEN
  | NOT_FOUND
  | CONFLICT
  | UNPROCESSABLE_ENTITY
  | RATE_LIMITED
  | INTERNAL_ERROR
  | BAD_GATEWAY
  | SERVICE_UNAVAILABLE
deriving DecidableEq, Repr

/-- Modelled from the spec: the state of the (external, unimplemented)
server — the stored resources, a counter for fresh ids and a clock for
timestamps. -/
structure ServerState where
  store : List Resource
  nextId : Nat
  now : Nat
deriving DecidableEq, Repr

/-- Modelled from the spec: the server-assigned fresh id for the next
created resource. -/
def freshId (st : ServerState) : String :=
  toString st.nextId

/-- Modelled from the spec: `create(payload) → Resource` — the record's
fields match the payload plus server-assigned `id`, `created_at`,
`updated_at`; the created record is appended to the store. -/
def createData (st : ServerState) (p : Payload) : Resource × ServerState :=
  let r : Resource :=
    { id := freshId st
      name := p.name
      description := p.description
      status := p.status
      tags := p.tags
      metadata := p.metadata
      created_at := st.now
      updated_at := st.now }
  (r, { st with store := st.store ++ [r], nextId := st.nextId + 1 })

/-- Modelled from the spec: `get(id) → Resource`, failing with the
`NOT_FOUND` error when the id is absent. -/
def getData (st : ServerState) (id : String) : Except ErrorCode Resource :=
  match st.store.find? (fun r => r.id == id) with
  | some r => Except.ok r
  | none => Except.error ErrorCode.NOT_FOUND

/-- Helper: a `find?` over an appended singleton when the front part has
no match. -/
theorem find_append_singleton {α : Type} (l : List α) (p : α → Bool) (x : α)
    (h : l.find? p = none) :
    (l ++ [x]).find? p = if p x then some x else none := by
  induction l with
  | nil => cases hpx : p x <;> simp [List.find?, hpx]
  | cons a t ih =>
    rw [List.find?_cons] at h
    cases hpa : p a with
    | true =>
      rw [hpa] at h
      simp at h
    | false =>
      rw [hpa] at h
      simp only [cond_false] at h
      simp only [List.cons_append, List.find?_cons, hpa, cond_false]
      exact ih h

/-- C1: the create/get round-trip — getting the id of a freshly created
resource returns a record whose fields equal the payload's, extended with
the server-assigned `id`, `created_at` and `updated_at`.  The hypothesis
is the documented server-side id uniqueness: the fresh id is not already
in the store. -/
theorem create_get_roundtrip (st : ServerState) (p : Payload)
    (h : ∀ r ∈ st.store, r.id ≠ freshId st) :
    getData (createData st p).2 (createData st p).1.id =
      Except.ok (createData st p).1 ∧
    (createData st p).1.name = p.name ∧
    (createData st p).1.description = p.description ∧
    (createData st p).1.status = p.status ∧
    (createData st p).1.tags = p.tags ∧
    (createData st p).1.metadata = p.metadata ∧
    (createData st p).1.id = freshId st ∧
    (createData st p).1.created_at = st.now ∧
    (createData st p).1.updated_at = st.now := by
  refine ⟨?_, rfl, rfl, rfl, rfl, rfl, rfl, rfl, rfl⟩
  have hnone : st.store.find? (fun r => r.id == freshId st) = none := by
    rw [List.find?_eq_none]
    intro r hr
    simpa using h r hr
  simp only [createData, getData]
  rw [find_append_singleton _ _ _ hnone]
  simp

/-- Witness for C1 at a concrete state and payload. -/
theorem create_get_roundtrip_witness :
    (∀ r ∈ (ServerState.mk [] 1 5).store, r.id ≠ freshId (ServerState.mk [] 1 5)) ∧
    getData (createData (ServerState.mk [] 1 5)
        (Payload.mk "New Item" (some "desc") Status.active ["new"] [])).2
      (createData (ServerState.mk [] 1 5)
        (Payload.mk "New Item" (some "desc") Status.active ["new"] [])).1.id =
      Except.ok (createData (ServerState.mk [] 1 5)
        (Payload.mk "New Item" (some "desc") Status.active ["new"] [])).1 := by
  constructor
  · intro r hr
    simp at hr
  · exact (create_get_roundtrip (ServerState.mk [] 1 5)
      (Payload.mk "New Item" (some "desc") Status.active ["new"] [])
      (by intro r hr; simp at hr)).1

/-- Modelled from the spec: `delete(id)` — removes the entry with the
given id and reports success with a boolean (`true` on successful
deletion), failing with `NOT_FOUND` when the id is absent. -/
def deleteData (st : ServerState) (id : String) :
    Except ErrorCode (Bool × ServerState) :=
  if st.store.any (fun r => r.id == id) then
    Except.ok (true, { st with store := st.store.filter (fun r => r.id != id) })
  else
    Except.error ErrorCode.NOT_FOUND

/-- C2: after a successful `delete(id)`, `get(id)` fails with the
`NOT_FOUND` error — the deleted resource is no longer retrievable. -/
theorem delete_then_get_not_found (st : ServerState) (id : String) (b : Bool)
    (st' : ServerState) (h : deleteData st id = Except.ok (b, st')) :
    getData st' id = Except.error ErrorCode.NOT_FOUND := by
  unfold deleteData at h
  by_cases hmem : st.store.any (fun r => r.id == id) = true
  · rw [if_pos hmem] at h
    have hst : st' = { st with store := st.store.filter (fun r => r.id != id) } := by
      injection h with h1
      injection h1 with _ h2
      exact h2.symm
    subst hst
    unfold getData
    have hfind :
        (st.store.filter (fun r => r.id != id)).find? (fun r => r.id == id) = none := by
      rw [List.find?_eq_none]
      intro r hr
      have := (List.mem_filter.mp hr).2
      simp at this
      simp [this]
    simp [hfind]
  · rw [if_neg hmem] at h
    exact absurd h (by simp)

/-- Witness for C2 at a concrete one-element store. -/
theorem delete_then_get_not_found_witness :
    getData { store := [], nextId := 2, now := 7 } "1" =
      Except.error ErrorCode.NOT_FOUND := by
  refine delete_then_get_not_found
    { store := [{ id := "1", name := "Example Item", description := none,
                  status := Status.active, tags := [], metadata := [],
                  created_at := 0, updated_at := 0 }], nextId := 2, now := 7 }
    "1" true _ ?_
  rfl

/-- C7: the result of a successful `delete(id)` is the boolean `true`
(as opposed to a structured object): whenever the id is present, the
operation succeeds and its payload is `true`. -/
theorem delete_returns_true (st : ServerState) (id : String)
    (h : st.store.any (fun r => r.id == id) = true) :
    deleteData st id =
      Except.ok (true, { st with store := st.store.filter (fun r => r.id != id) }) := by
  unfold deleteData
  rw [if_pos h]

/-- Witness for C7 at a concrete one-element store. -/
theorem delete_returns_true_witness :
    deleteData
      { store := [{ id := "1", name := "Example Item", description := none,
                    status := Status.active, tags := [], metadata := [],
                    created_at := 0, updated_at := 0 }], nextId := 2, now := 7 }
      "1" =
    Except.ok (true, { store := [], nextId := 2, now := 7 }) := by
  have h := delete_returns_true
    { store := [{ id := "1", name := "Example Item", description := none,
                  status := Status.active, tags := [], metadata := [],
                  created_at := 0, updated_at := 0 }], nextId := 2, now := 7 }
    "1" (by decide)
  simpa using h

/-- Helper: a resource with a different id survives deletion's filter. -/
theorem any_filter_keep (l : List Resource) (a b : String) (hab : a ≠ b)
    (h : l.any (fun r => r.id == b) = true) :
    (l.filter (fun r => r.id != a)).any (fun r => r.id == b) = true := by
  rw [List.any_eq_true] at h ⊢
  obtain ⟨r, hr, hrb⟩ := h
  have hid : r.id = b := by simpa using hrb
  refine ⟨r, List.mem_filter.mpr ⟨hr, ?_⟩, hrb⟩
  rw [hid]
  exact bne_iff_ne.mpr (Ne.symm hab)

/-- Helper: an absent id stays absent after any filtering of the store. -/
theorem any_filter_absent (l : List Resource) (p : Resource → Bool) (m : String)
    (h : l.any (fun r => r.id == m) = false) :
    (l.filter p).any (fun r => r.id == m) = false := by
  rw [Bool.eq_false_iff] at h ⊢
  intro hc
  apply h
  rw [List.any_eq_true] at hc ⊢
  obtain ⟨r, hr, hrm⟩ := hc
  exact ⟨r, (List.mem_filter.mp hr).1, hrm⟩

/-- Per-item error entry of a batch response: `{id, error}`. -/
structure BatchItemError where
  id : String
  error : String
deriving DecidableEq, Repr

/-- Summary of a batch delete: deleted and failed counts plus the
per-item error list, as in the documented `DELETE /data/batch` response. -/
structure BatchDeleteSummary where
  deleted : Nat
  failed : Nat
  errors : List BatchItemError
deriving DecidableEq, Repr

/-- Modelled from the spec: `batchDelete(ids)` — deletes each id in turn;
a failed member adds an `{id, error}` entry instead of aborting the
batch, which always returns a summary. -/
def batchDelete (st : ServerState) : List String → BatchDeleteSummary × ServerState
  | [] => ({ deleted := 0, failed := 0, errors := [] }, st)
  | id :: rest =>
    match deleteData st id with
    | Except.ok (_, st1) =>
      let res := batchDelete st1 rest
      ({ res.1 with deleted := res.1.deleted + 1 }, res.2)
    | Except.error _ =>
      let res := batchDelete st rest
      ({ res.1 with failed := res.1.failed + 1,
                    errors := { id := id, error := "Not found" } :: res.1.errors },
       res.2)

/-- Helper: deleting an absent id fails with `NOT_FOUND`. -/
theorem delete_absent (st : ServerState) (id : String)
    (h : st.store.any (fun r => r.id == id) = false) :
    deleteData st id = Except.error ErrorCode.NOT_FOUND := by
  simp [deleteData, h]

/-- C3: batch-deleting two existing ids and one absent id yields
`summary.deleted = 2`, `summary.failed = 1`, and exactly one error entry,
whose id is the absent one. -/
theorem batchDelete_two_present_one_absent (st : ServerState)
    (a b missing : String) (hab : a ≠ b)
    (ha : st.store.any (fun r => r.id == a) = true)
    (hb : st.store.any (fun r => r.id == b) = true)
    (hm : st.store.any (fun r => r.id == missing) = false) :
    (batchDelete st [a, b, missing]).1.deleted = 2 ∧
    (batchDelete st [a, b, missing]).1.failed = 1 ∧
    (batchDelete st [a, b, missing]).1.errors =
      [{ id := missing, error := "Not found" }] := by
  have h1 := delete_returns_true st a ha
  have hb1 := any_filter_keep st.store a b hab hb
  have hm1 := any_filter_absent st.store (fun r => r.id != a) missing hm
  have hm2 := any_filter_absent
    (st.store.filter (fun r => r.id != a)) (fun r => r.id != b) missing hm1
  have h2 : deleteData { st with store := st.store.filter (fun r => r.id != a) } b =
      Except.ok (true, { st with store :=
        (st.store.filter (fun r => r.id != a)).filter (fun r => r.id != b) }) :=
    delete_returns_true _ b hb1
  have h3 : deleteData
      { st with store :=
          (st.store.filter (fun r => r.id != a)).filter (fun r => r.id != b) }
      missing = Except.error ErrorCode.NOT_FOUND :=
    delete_absent _ missing hm2
  simp only [batchDelete, h1, h2, h3]
  exact ⟨trivial, trivial, trivial⟩

/-- Witness for C3 at a concrete two-element store. -/
theorem batchDelete_two_present_one_absent_witness :
    (batchDelete
      { store :=
          [{ id := "11111", name := "Item 1", description := none,
             status := Status.active, tags := [], metadata := [],
             created_at := 0, updated_at := 0 },
           { id := "22222", name := "Item 2", description := none,
             status := Status.active, tags := [], metadata := [],
             created_at := 0, updated_at := 0 }],
        nextId := 3, now := 9 }
      ["11111", "22222", "33333"]).1.deleted = 2 ∧
    (batchDelete
      { store :=
          [{ id := "11111", name := "Item 1", description := none,
             status := Status.active, tags := [], metadata := [],
             created_at := 0, updated_at := 0 },
           { id := "22222", name := "Item 2", description := none,
             status := Status.active, tags := [], metadata := [],
             created_at := 0, updated_at := 0 }],
        nextId := 3, now := 9 }
      ["11111", "22222", "33333"]).1.failed = 1 := by
  have h := batchDelete_two_present_one_absent
    { store :=
        [{ id := "11111", name := "Item 1", description := none,
           status := Status.active, tags := [], metadata := [],
           created_at := 0, updated_at := 0 },
         { id := "22222", name := "Item 2", description := none,
           status := Status.active, tags := [], metadata := [],
           created_at := 0, updated_at := 0 }],
      nextId := 3, now := 9 }
    "11111" "22222" "33333" (by decide) (by decide) (by decide) (by decide)
  exact ⟨h.1, h.2.1⟩

/-- Modelled from the spec: payload validation — `name` is required
("Name is required" in the documented validation error). -/
def validatePayload (p : Payload) : Bool :=
  p.name != ""

/-- Modelled from the spec: `update(id, payload)` (full replace) —
replaces the payload fields of the stored record and refreshes
`updated_at`, failing with `NOT_FOUND` when the id is absent. -/
def updateData (st : ServerState) (id : String) (p : Payload) :
    Except ErrorCode (Resource × ServerState) :=
  match st.store.find? (fun r => r.id == id) with
  | none => Except.error ErrorCode.NOT_FOUND
  | some r =>
    let r' : Resource :=
      { r with name := p.name, description := p.description, status := p.status,
               tags := p.tags, metadata := p.metadata, updated_at := st.now }
    Except.ok (r', { st with store := st.store.map (fun q => if q.id == id then r' else q) })

/-- Summary of a batch create: created and failed counts plus the
per-item error list. -/
structure BatchCreateSummary where
  created : Nat
  failed : Nat
  errors : List BatchItemError
deriving DecidableEq, Repr

/-- Modelled from the spec: `batchCreate(items)` — creates each item in
turn; an item failing validation adds an error entry instead of aborting
the batch, which always returns a summary. -/
def batchCreate (st : ServerState) :
    List Payload → (List Resource × BatchCreateSummary) × ServerState
  | [] => (([], { created := 0, failed := 0, errors := [] }), st)
  | p :: rest =>
    if validatePayload p then
      let c := createData st p
      let res := batchCreate c.2 rest
      ((c.1 :: res.1.1, { res.1.2 with created := res.1.2.created + 1 }), res.2)
    else
      let res := batchCreate st rest
      ((res.1.1,
        { res.1.2 with failed := res.1.2.failed + 1,
                       errors := { id := "", error := "Validation failed" } :: res.1.2.errors }),
       res.2)

/-- Summary of a batch update: updated and failed counts plus the
per-item error list. -/
structure BatchUpdateSummary where
  updated : Nat
  failed : Nat
  errors : List BatchItemError
deriving DecidableEq, Repr

/-- Modelled from the spec: `batchUpdate(items)` — updates each
`(id, payload)` in turn; a failed member adds an `{id, error}` entry
instead of aborting the batch, which always returns a summary. -/
def batchUpdate (st : ServerState) :
    List (String × Payload) → BatchUpdateSummary × ServerState
  | [] => ({ updated := 0, failed := 0, errors := [] }, st)
  | item :: rest =>
    match updateData st item.1 item.2 with
    | Except.ok (_, st1) =>
      let res := batchUpdate st1 rest
      ({ res.1 with updated := res.1.updated + 1 }, res.2)
    | Except.error _ =>
      let res := batchUpdate st rest
      ({ res.1 with failed := res.1.failed + 1,
                    errors := { id := item.1, error := "Not found" } :: res.1.errors },
       res.2)

/-- Helper for C4: batchCreate counts add up to the item count and the
error list has one entry per failed member. -/
theorem batchCreate_counts (items : List Payload) (st : ServerState) :
    (batchCreate st items).1.2.created + (batchCreate st items).1.2.failed
        = items.length ∧
    (batchCreate st items).1.2.errors.length = (batchCreate st items).1.2.failed := by
  induction items generalizing st with
  | nil => simp [batchCreate]
  | cons p rest ih =>
    by_cases hv : validatePayload p = true
    · have := ih (createData st p).2
      simp only [batchCreate, hv, if_true, List.length_cons]
      exact ⟨by omega, this.2⟩
    · have := ih st
      rw [Bool.not_eq_true] at hv
      simp only [batchCreate, hv, Bool.false_eq_true, if_false, List.length_cons,
        List.length_cons]
      exact ⟨by omega, by simp [this.2]⟩

/-- Helper for C4: batchUpdate counts add up to the item count and the
error list has one entry per failed member. -/
theorem batchUpdate_counts (items : List (String × Payload)) (st : ServerState) :
    (batchUpdate st items).1.updated + (batchUpdate st items).1.failed
        = items.length ∧
    (batchUpdate st items).1.errors.length = (batchUpdate st items).1.failed := by
  induction items generalizing st with
  | nil => simp [batchUpdate]
  | cons item rest ih =>
    cases hu : updateData st item.1 item.2 with
    | ok v =>
      have := ih v.2
      simp only [batchUpdate, hu, List.length_cons]
      exact ⟨by omega, this.2⟩
    | error e =>
      have := ih st
      simp only [batchUpdate, hu, List.length_cons]
      exact ⟨by omega, by simp [this.2]⟩

/-- Helper for C4: batchDelete counts add up to the id count and the
error list has one entry per failed member. -/
theorem batchDelete_counts (ids : List String) (st : ServerState) :
    (batchDelete st ids).1.deleted + (batchDelete st ids).1.failed = ids.length ∧
    (batchDelete st ids).1.errors.length = (batchDelete st ids).1.failed := by
  induction ids generalizing st with
  | nil => simp [batchDelete]
  | cons id rest ih =>
    cases hd : deleteData st id with
    | ok v =>
      have := ih v.2
      simp only [batchDelete, hd, List.length_cons]
      exact ⟨by omega, this.2⟩
    | error e =>
      have := ih st
      simp only [batchDelete, hd, List.length_cons]
      exact ⟨by omega, by simp [this.2]⟩

/-- C4: batch operations never fail atomically — each of batchCreate,
batchUpdate and batchDelete is a total function that, for every input
(failed members included), returns a summary whose succeeded and failed
counts add up to the number of items, with one error entry per failed
member. -/
theorem batch_partial_failure (st : ServerState) (items : List Payload)
    (ups : List (String × Payload)) (ids : List String) :
    ((batchCreate st items).1.2.created + (batchCreate st items).1.2.failed
        = items.length ∧
      (batchCreate st items).1.2.errors.length = (batchCreate st items).1.2.failed) ∧
    ((batchUpdate st ups).1.updated + (batchUpdate st ups).1.failed = ups.length ∧
      (batchUpdate st ups).1.errors.length = (batchUpdate st ups).1.failed) ∧
    ((batchDelete st ids).1.deleted + (batchDelete st ids).1.failed = ids.length ∧
      (batchDelete st ids).1.errors.length = (batchDelete st ids).1.failed) :=
  ⟨batchCreate_counts items st, batchUpdate_counts ups st, batchDelete_counts ids st⟩

/-- Pagination envelope: `{current_page, per_page, total, total_pages,
has_next, has_prev}`, recomputed per request. -/
structure PaginationEnvelope where
  current_page : Nat
  per_page : Nat
  total : Nat
  total_pages : Nat
  has_next : Bool
  has_prev : Bool
deriving DecidableEq, Repr

/-- Modelled from the spec: the derived pagination envelope —
`total_pages` is the total divided by the page size rounded up,
`has_next` holds below the last page, `has_prev` beyond the first. -/
def mkPagination (page per_page total : Nat) : PaginationEnvelope :=
  let tp := (total + per_page - 1) / per_page
  { current_page := page
    per_page := per_page
    total := total
    total_pages := tp
    has_next := decide (page < tp)
    has_prev := decide (1 < page) }

/-- C5: the pagination envelope — `total_pages` is the least page count
covering `total` items (i.e. the ceiling of `total / per_page`,
characterised as `total ≤ total_pages * per_page < total + per_page`),
`has_next` holds exactly when `current_page < total_pages`, `has_prev`
exactly when `current_page > 1`; and on `page = 2, limit = 50,
total = 150` the envelope has `total_pages = 3`, `has_next = true`,
`has_prev = true`. -/
theorem pagination_envelope_spec (page per_page total : Nat)
    (hpp : 0 < per_page) :
    (total ≤ (mkPagination page per_page total).total_pages * per_page ∧
      (mkPagination page per_page total).total_pages * per_page < total + per_page) ∧
    ((mkPagination page per_page total).has_next = true ↔
      (mkPagination page per_page total).current_page <
        (mkPagination page per_page total).total_pages) ∧
    ((mkPagination page per_page total).has_prev = true ↔
      1 < (mkPagination page per_page total).current_page) ∧
    (mkPagination 2 50 150).total_pages = 3 ∧
    (mkPagination 2 50 150).has_next = true ∧
    (mkPagination 2 50 150).has_prev = true := by
  refine ⟨?_, by simp [mkPagination], by simp [mkPagination], by decide, by decide, by decide⟩
  have hdm := Nat.div_add_mod (total + per_page - 1) per_page
  have hlt : (total + per_page - 1) % per_page < per_page := Nat.mod_lt _ hpp
  simp only [mkPagination]
  rw [Nat.mul_comm]
  generalize per_page * ((total + per_page - 1) / per_page) = m at hdm ⊢
  generalize (total + per_page - 1) % per_page = r at hdm hlt
  omega

/-- Witness for C5 at the documented concrete request. -/
theorem pagination_envelope_spec_witness :
    (0 < 50 ∧ 150 ≤ (mkPagination 2 50 150).total_pages * 50) ∧
    (mkPagination 2 50 150).total_pages = 3 ∧
    (mkPagination 2 50 150).has_next = true ∧
    (mkPagination 2 50 150).has_prev = true := by
  have h := pagination_envelope_spec 2 50 150 (by decide)
  exact ⟨⟨by decide, h.1.1⟩, h.2.2.2.1, h.2.2.2.2.1, h.2.2.2.2.2⟩

/-- Request context: the presented API key and the request counts already
consumed in the current hour and minute windows. -/
structure RequestContext where
  apiKey : Option String
  requestsThisHour : Nat
  requestsThisMinute : Nat
deriving DecidableEq, Repr

/-- Modelled from the spec: the `X-RateLimit-Remaining` header value for
an hourly limit of 1000 requests (clamped at zero). -/
def rateLimitRemaining (requestsThisHour : Nat) : Nat :=
  1000 - requestsThisHour

/-- Modelled from the spec: `list(filter, sort, pagination)` — fails with
the 401 `UNAUTHORIZED` error (AuthError) when the API key is missing or
invalid, with the 429 `RATE_LIMITED` error (RateLimitError) when the
quota is exceeded (1000 requests/hour, 100 requests/minute burst), and
otherwise returns the requested page of the store with its pagination
envelope. -/
def listData (validKeys : List String) (ctx : RequestContext)
    (st : ServerState) (page limit : Nat) :
    Except ErrorCode (List Resource × PaginationEnvelope) :=
  match ctx.apiKey with
  | none => Except.error ErrorCode.UNAUTHORIZED
  | some k =>
    if validKeys.contains k then
      if 1000 ≤ ctx.requestsThisHour then Except.error ErrorCode.RATE_LIMITED
      else if 100 ≤ ctx.requestsThisMinute then Except.error ErrorCode.RATE_LIMITED
      else
        Except.ok ((st.store.drop ((page - 1) * limit)).take limit,
                   mkPagination page limit st.store.length)
    else Except.error ErrorCode.UNAUTHORIZED

/-- C6: `list` fails with the `UNAUTHORIZED` error (AuthError) when the
API key is missing or invalid; it fails with the `RATE_LIMITED` error
(RateLimitError) when the hourly quota of 1000 requests or the burst
quota of 100 requests/minute is exceeded, and when the hourly quota is
exceeded the `X-RateLimit-Remaining` value is 0. -/
theorem list_auth_and_rate_limit (validKeys : List String)
    (ctx : RequestContext) (st : ServerState) (page limit : Nat) :
    (ctx.apiKey = none →
      listData validKeys ctx st page limit = Except.error ErrorCode.UNAUTHORIZED) ∧
    (∀ k, ctx.apiKey = some k → validKeys.contains k = false →
      listData validKeys ctx st page limit = Except.error ErrorCode.UNAUTHORIZED) ∧
    (∀ k, ctx.apiKey = some k → validKeys.contains k = true →
      1000 ≤ ctx.requestsThisHour →
      listData validKeys ctx st page limit = Except.error ErrorCode.RATE_LIMITED ∧
      rateLimitRemaining ctx.requestsThisHour = 0) ∧
    (∀ k, ctx.apiKey = some k → validKeys.contains k = true →
      100 ≤ ctx.requestsThisMinute →
      listData validKeys ctx st page limit = Except.error ErrorCode.RATE_LIMITED) := by
  refine ⟨?_, ?_, ?_, ?_⟩
  · intro hk
    simp [listData, hk]
  · intro k hk hinv
    have hinv2 : k ∉ validKeys := by simpa using hinv
    simp [listData, hk, hinv2]
  · intro k hk hv hq
    have hv2 : k ∈ validKeys := by simpa using hv
    refine ⟨?_, ?_⟩
    · simp [listData, hk, hv2, hq]
    · simp only [rateLimitRemaining]
      omega
  · intro k hk hv hq
    have hv2 : k ∈ validKeys := by simpa using hv
    by_cases hh : 1000 ≤ ctx.requestsThisHour
    · simp [listData, hk, hv2, hh]
    · simp [listData, hk, hv2, hh, hq]

/-- Witness for C6 at concrete contexts: an invalid key is rejected as
`UNAUTHORIZED`, and an exhausted hourly quota is rejected as
`RATE_LIMITED` with a remaining count of 0. -/
theorem list_auth_and_rate_limit_witness :
    listData ["good-key"] (RequestContext.mk (some "bad-key") 0 0)
        (ServerState.mk [] 1 0) 1 20 = Except.error ErrorCode.UNAUTHORIZED ∧
    listData ["good-key"] (RequestContext.mk (some "good-key") 1000 0)
        (ServerState.mk [] 1 0) 1 20 = Except.error ErrorCode.RATE_LIMITED ∧
    rateLimitRemaining 1000 = 0 := by
  have h1 := (list_auth_and_rate_limit ["good-key"]
    (RequestContext.mk (some "bad-key") 0 0) (ServerState.mk [] 1 0) 1 20).2.1
    "bad-key" rfl (by decide)
  have h2 := (list_auth_and_rate_limit ["good-key"]
    (RequestContext.mk (some "good-key") 1000 0) (ServerState.mk [] 1 0) 1 20).2.2.1
    "good-key" rfl (by decide) (by decide)
  exact ⟨h1, h2.1, h2.2⟩

/-- Embedding of `withErrorHandling` from `src/examples/basic-usage.js`:
wraps an async function in a try/catch that returns the awaited result
on success and `null` (here `none`) when the call throws or rejects; the
wrapper itself is total, so it never throws. -/
def withErrorHandling {α ε β : Type} (fn : α → Except ε β) : α → Option β :=
  fun args =>
    match fn args with
    | Except.ok v => some v
    | Except.error _ => none

/-- C8: the wrapper returned by `withErrorHandling(fn)` returns `null`
exactly when `fn` throws or rejects on those arguments, and otherwise
returns the awaited result of `fn` unchanged; being a total function
into `Option`, the wrapper itself never throws. -/
theorem withErrorHandling_spec {α ε β : Type} (fn : α → Except ε β) (a : α) :
    (withErrorHandling fn a = none ↔ ∃ e, fn a = Except.error e) ∧
    (∀ b, withErrorHandling fn a = some b ↔ fn a = Except.ok b) := by
  unfold withErrorHandling
  cases h : fn a with
  | ok v => simp
  | error e => simp

/-- Embedding of the retry loop of `retryWithBackoff` from
`src/examples/basic-usage.js`, instrumented with the number of
invocations of `fn` and the list of waited delays.  `fn n` is the
outcome of the n-th invocation of the operation; `r` is the number of
retries still allowed after the current attempt (so the final attempt
runs with `r = 0` and rethrows its error). -/
def retryFrom {ε α : Type} (fn : Nat → Except ε α) (baseDelay attempt : Nat) :
    Nat → Except ε α × Nat × List Nat
  | 0 => (fn attempt, 1, [])
  | r + 1 =>
    match fn attempt with
    | Except.ok v => (Except.ok v, 1, [])
    | Except.error _ =>
      match retryFrom fn baseDelay (attempt + 1) r with
      | (res, c, ds) => (res, c + 1, baseDelay * 2 ^ (attempt - 1) :: ds)

/-- Embedding of `retryWithBackoff(fn, maxRetries, baseDelay)` from
`src/examples/basic-usage.js`: the loop starts at attempt 1 and allows
`maxRetries - 1` further attempts.  The result carries the outcome, the
number of invocations of `fn`, and the waited delays in order. -/
def retryWithBackoff {ε α : Type} (fn : Nat → Except ε α)
    (maxRetries baseDelay : Nat) : Except ε α × Nat × List Nat :=
  retryFrom fn baseDelay 1 (maxRetries - 1)

/-- Helper: the retry loop makes at most `r + 1` invocations. -/
theorem retryFrom_count_le {ε α : Type} (fn : Nat → Except ε α) (d : Nat) :
    ∀ (r attempt : Nat), (retryFrom fn d attempt r).2.1 ≤ r + 1 := by
  intro r
  induction r with
  | zero =>
    intro attempt
    simp [retryFrom]
  | succ r ih =>
    intro attempt
    cases h : fn attempt with
    | ok v => simp [retryFrom, h]
    | error e =>
      have := ih (attempt + 1)
      cases hres : retryFrom fn d (attempt + 1) r with
      | mk res rest =>
        cases rest with
        | mk c ds =>
          simp only [retryFrom, h, hres]
          rw [hres] at this
          simpa using Nat.add_le_add_right this 1

/-- Helper: when every attempt in the window fails, the loop returns the
outcome of the final attempt after making all allowed invocations. -/
theorem retryFrom_all_fail {ε α : Type} (fn : Nat → Except ε α) (d : Nat) :
    ∀ (r attempt : Nat),
      (∀ j, attempt ≤ j → j ≤ attempt + r → (fn j).isOk = false) →
      (retryFrom fn d attempt r).1 = fn (attempt + r) ∧
      (retryFrom fn d attempt r).2.1 = r + 1 := by
  intro r
  induction r with
  | zero =>
    intro attempt _
    simp [retryFrom]
  | succ r ih =>
    intro attempt h
    have hfail : (fn attempt).isOk = false := h attempt le_rfl (by omega)
    cases hfa : fn attempt with
    | ok v =>
      rw [hfa] at hfail
      simp [Except.isOk, Except.toBool] at hfail
    | error e =>
      have hrec := ih (attempt + 1) (fun j h1 h2 => h j (by omega) (by omega))
      cases hres : retryFrom fn d (attempt + 1) r with
      | mk res rest =>
        cases rest with
        | mk c ds =>
          rw [hres] at hrec
          simp only [retryFrom, hfa, hres]
          simp only at hrec
          refine ⟨?_, ?_⟩
          · rw [hrec.1]
            congr 1
            omega
          · simp [hrec.2]

/-- Helper: when attempt `k` is the first success in the window, the loop
returns `fn k` after exactly `k - attempt + 1` invocations. -/
theorem retryFrom_first_success {ε α : Type} (fn : Nat → Except ε α) (d : Nat) :
    ∀ (r attempt k : Nat), attempt ≤ k → k ≤ attempt + r →
      (fn k).isOk = true →
      (∀ j, attempt ≤ j → j < k → (fn j).isOk = false) →
      (retryFrom fn d attempt r).1 = fn k ∧
      (retryFrom fn d attempt r).2.1 = k - attempt + 1 := by
  intro r
  induction r with
  | zero =>
    intro attempt k h1 h2 hok hmin
    have hk : k = attempt := by omega
    subst hk
    simp [retryFrom]
  | succ r ih =>
    intro attempt k h1 h2 hok hmin
    by_cases hka : k = attempt
    · subst hka
      cases hfa : fn k with
      | ok v => simp [retryFrom, hfa]
      | error e =>
        rw [hfa] at hok
        simp [Except.isOk, Except.toBool] at hok
    · have hlt : attempt < k := by omega
      have hfail : (fn attempt).isOk = false := hmin attempt le_rfl hlt
      cases hfa : fn attempt with
      | ok v =>
        rw [hfa] at hfail
        simp [Except.isOk, Except.toBool] at hfail
      | error e =>
        have hrec := ih (attempt + 1) k (by omega) (by omega) hok
          (fun j hj1 hj2 => hmin j (by omega) hj2)
        cases hres : retryFrom fn d (attempt + 1) r with
        | mk res rest =>
          cases rest with
          | mk c ds =>
            rw [hres] at hrec
            simp only at hrec
            simp only [retryFrom, hfa, hres]
            refine ⟨hrec.1, ?_⟩
            simp only [hrec.2]
            omega

/-- C9: `retryWithBackoff(fn, maxRetries, baseDelay)` invokes `fn` at
most `maxRetries` times; if attempt `k` is the first to succeed it
returns `fn k` after exactly `k` invocations (never invoking `fn`
again); and if all `maxRetries` attempts fail it throws the error of the
final attempt after exactly `maxRetries` invocations. -/
theorem retryWithBackoff_spec {ε α : Type} (fn : Nat → Except ε α)
    (maxRetries d : Nat) (hmr : 1 ≤ maxRetries) :
    (retryWithBackoff fn maxRetries d).2.1 ≤ maxRetries ∧
    (∀ k, 1 ≤ k → k ≤ maxRetries → (fn k).isOk = true →
      (∀ j, 1 ≤ j → j < k → (fn j).isOk = false) →
      (retryWithBackoff fn maxRetries d).1 = fn k ∧
      (retryWithBackoff fn maxRetries d).2.1 = k) ∧
    ((∀ j, 1 ≤ j → j ≤ maxRetries → (fn j).isOk = false) →
      (retryWithBackoff fn maxRetries d).1 = fn maxRetries ∧
      (retryWithBackoff fn maxRetries d).2.1 = maxRetries) := by
  unfold retryWithBackoff
  refine ⟨?_, ?_, ?_⟩
  · have := retryFrom_count_le fn d (maxRetries - 1) 1
    omega
  · intro k hk1 hk2 hok hmin
    have := retryFrom_first_success fn d (maxRetries - 1) 1 k hk1 (by omega) hok
      (fun j hj1 hj2 => hmin j hj1 hj2)
    exact ⟨this.1, by omega⟩
  · intro hall
    have := retryFrom_all_fail fn d (maxRetries - 1) 1
      (fun j hj1 hj2 => hall j hj1 (by omega))
    have heq : 1 + (maxRetries - 1) = maxRetries := by omega
    rw [heq] at this
    exact ⟨this.1, by omega⟩

/-- Witness for C9: with an operation failing on attempt 1 and
succeeding on attempt 2, a 3-attempt retry returns the attempt-2 result
after exactly 2 invocations. -/
theorem retryWithBackoff_spec_witness :
    (retryWithBackoff
        (fun n => if n = 2 then Except.ok 42 else Except.error "boom") 3 500).1 =
      Except.ok 42 ∧
    (retryWithBackoff
        (fun n => if n = 2 then Except.ok 42 else Except.error "boom") 3 500).2.1 = 2 := by
  have h := (retryWithBackoff_spec
    (fun n => if n = 2 then Except.ok 42 else Except.error "boom") 3 500
    (by decide)).2.1 2 (by decide) (by decide) (by decide)
    (by
      intro j hj1 hj2
      have : j = 1 := by omega
      subst this
      decide)
  exact ⟨h.1, h.2⟩

/-- Helper: the loop makes at least one invocation. -/
theorem retryFrom_count_pos {ε α : Type} (fn : Nat → Except ε α) (d : Nat) :
    ∀ (r attempt : Nat), 1 ≤ (retryFrom fn d attempt r).2.1 := by
  intro r
  induction r with
  | zero =>
    intro attempt
    simp [retryFrom]
  | succ r ih =>
    intro attempt
    cases h : fn attempt with
    | ok v => simp [retryFrom, h]
    | error e =>
      cases hres : retryFrom fn d (attempt + 1) r with
      | mk res rest =>
        cases rest with
        | mk c ds =>
          simp [retryFrom, h, hres]

/-- Helper: the recorded delays are exactly `baseDelay * 2 ^ (n - 1)`
for the failed attempts `n`, in order. -/
theorem retryFrom_delays {ε α : Type} (fn : Nat → Except ε α) (d : Nat) :
    ∀ (r attempt : Nat),
      (retryFrom fn d attempt r).2.2 =
        (List.range' attempt ((retryFrom fn d attempt r).2.1 - 1)).map
          (fun n => d * 2 ^ (n - 1)) := by
  intro r
  induction r with
  | zero =>
    intro attempt
    simp [retryFrom]
  | succ r ih =>
    intro attempt
    cases h : fn attempt with
    | ok v => simp [retryFrom, h]
    | error e =>
      have hpos := retryFrom_count_pos fn d r (attempt + 1)
      have hdel := ih (attempt + 1)
      cases hres : retryFrom fn d (attempt + 1) r with
      | mk res rest =>
        cases rest with
        | mk c ds =>
          rw [hres] at hpos hdel
          simp only at hpos hdel
          simp only [retryFrom, h, hres]
          have hc : c + 1 - 1 = (c - 1) + 1 := by omega
          simp only [hc, List.range']
          simp [hdel]

/-- C10: in `retryWithBackoff`, the delay waited after failed attempt
number `n` (before attempt `n + 1`) is exactly `baseDelay * 2 ^ (n - 1)`
— the recorded delay list of a run equals the map of that formula over
the failed attempts `1, …, count - 1` in order. -/
theorem retryWithBackoff_delays {ε α : Type} (fn : Nat → Except ε α)
    (maxRetries d : Nat) :
    (retryWithBackoff fn maxRetries d).2.2 =
      (List.range' 1 ((retryWithBackoff fn maxRetries d).2.1 - 1)).map
        (fun n => d * 2 ^ (n - 1)) := by
  unfold retryWithBackoff
  exact retryFrom_delays fn d (maxRetries - 1) 1
